import Mathlib

set_option autoImplicit false

/-!
Verification development for the abagen core: the sample-to-atlas matching
engine (`abagen/matching.py`) and the post-match statistical corrections
(`abagen/correct.py`).

The Python source is shallowly embedded: coordinates and matrix entries are
rationals (the source computes with floats; every claim settled here depends
only on comparisons and exact arithmetic, never on rounding), except for the
surface-matching outlier cutoff and the correlation kernel, which genuinely
use square roots and are embedded over `ℝ`.  NaN-able values are `Option`s
(`none` = NaN), matching numpy's propagation rules where the source relies on
them.  Python exceptions are `Except`/`Option` results.
-/

namespace Abagen

/-- A 3D coordinate (`mni_x`, `mni_y`, `mni_z`). -/
abbrev Point := ℚ × ℚ × ℚ

/-- Squared Euclidean distance between two points.  The source compares
Euclidean distances coming from `scipy.spatial`; every such comparison in the
volumetric matcher is of the form `dist ≤ r` or an argmin, both of which are
invariant under squaring, so the embedding works with squared distances. -/
def sqdist (p q : Point) : ℚ :=
  (p.1 - q.1) ^ 2 + (p.2.1 - q.2.1) ^ 2 + (p.2.2 - q.2.2) ^ 2

/-- One row of an `annotation` dataframe: a tissue sample's MNI coordinate and
its declared hemisphere and broad structural class. -/
structure Sample where
  coord : Point
  hemisphere : String
  structure_ : String
  deriving DecidableEq, Repr, Inhabited

/-- One row of an `atlas_info` dataframe: columns `id`, `hemisphere`,
`structure`. -/
structure InfoRow where
  id : ℕ
  hemisphere : String
  structure_ : String
  deriving DecidableEq, Repr

/-- The `atlas_info` table (`pandas.DataFrame` keyed by `id`). -/
abbrev AtlasInfo := List InfoRow

/-- Lookup `atlas_info.loc[l]`: the metadata row for label `l`, if one exists. -/
def lookupRow (info : AtlasInfo) (l : ℕ) : Option InfoRow :=
  info.find? (fun r => r.id == l)

/-- Embedding of `matching._check_label`.

`label` is the array of tentative labels (already `np.atleast_1d`), and
`sampleInfo` the corresponding annotation rows.  The source replicates
`sample_info` when its length differs from `label` (`pd.concat`), then looks
up every label in `atlas_info.loc[label, cols]`: if ANY label has no metadata
row this raises `KeyError`, which the source catches with `except KeyError:
pass`, returning `label` unchanged.  Otherwise, bilateral rows ("B") are
dropped (set to 0) exactly when the structures differ, and all other rows are
dropped when hemisphere or structure differs. -/
def checkLabel (label : List ℕ) (sampleInfo : List Sample) (info : AtlasInfo) :
    List ℕ :=
  let si := if sampleInfo.length = label.length then sampleInfo
            else (List.replicate label.length sampleInfo).flatten
  if label.all (fun l => (lookupRow info l).isSome) then
    (label.zip si).map (fun ls =>
      match lookupRow info ls.1 with
      | none => ls.1
      | some row =>
        if row.hemisphere = "B" then
          if row.structure_ ≠ ls.2.structure_ then 0 else ls.1
        else
          if row.hemisphere ≠ ls.2.hemisphere ∨ row.structure_ ≠ ls.2.structure_
          then 0 else ls.1)
  else label

/-- Insert into a sorted list (ascending). -/
def insertSorted (x : ℕ) : List ℕ → List ℕ
  | [] => [x]
  | y :: ys => if x ≤ y then x :: y :: ys else y :: insertSorted x ys

/-- Ascending insertion sort. -/
def sortNat (l : List ℕ) : List ℕ := l.foldr insertSorted []

/-- Representation of `matching.AtlasTree` after construction: the nonzero
parcel labels, the matching coordinates (the `cKDTree` data), and the optional
`atlas_info` table.  `atlas` and `coords` are parallel arrays.  Centroids are
recomputed from these fields on demand (`centroid` below), exactly the values
the source caches in `self._centroids`. -/
structure AtlasTree where
  atlas : List ℕ
  coords : List Point
  info : Option AtlasInfo
  deriving DecidableEq, Repr

/-- Computation of `self._labels = np.unique(self.atlas)` from the raw
inputs: the sorted distinct nonzero labels after the zero-label drop. -/
def uniqueLabels (atlas : List ℕ) (cs : List Point) : List ℕ :=
  sortNat ((((atlas.zip cs).filter (fun lc => lc.1 ≠ 0)).map Prod.fst).dedup)

/-- Modelled from the spec: `abagen.images.check_atlas_info` is not under
`src/` (only its caller is — the `atlas_info` property setter that
`AtlasTree.__init__` invokes on its last line).  Per §4.1, attaching
StructuralInfo fails with `OrphanLabel` if any described label is absent
from the indexed label set; a label may exist in the index without metadata,
but a description of a nonexistent label is an error. -/
def checkAtlasInfo (info : AtlasInfo) (labels : List ℕ) :
    Except String AtlasInfo :=
  if info.all (fun r => decide (r.id ∈ labels)) then .ok info
  else .error "OrphanLabel: atlas_info describes a label absent from the atlas."

/-- Embedding of `AtlasTree.__init__` for an array (surface) atlas — the
`except TypeError` branch of the source, reached whenever `atlas` is not a
volumetric image.  Missing `coords` and a length mismatch each raise
`ValueError`; otherwise zero-labeled points are dropped, the tree is built,
and — via the `atlas_info` setter called on the constructor's last line —
any supplied `atlas_info` is validated against the unique label set
(`check_atlas_info`), raising when it describes an absent label.  Returning
`Except` models that a raised error yields no partial index. -/
def mkAtlasTree (atlas : List ℕ) (coords : Option (List Point))
    (info : Option AtlasInfo) : Except String AtlasTree :=
  match coords with
  | none => .error "When providing a surface atlas you must also supply relevant geometry coords."
  | some cs =>
    if atlas.length ≠ cs.length then
      .error "Provided atlas and coords are of differing length."
    else
      let kept := (atlas.zip cs).filter (fun lc => lc.1 ≠ 0)
      match info with
      | none => .ok ⟨kept.map Prod.fst, kept.map Prod.snd, none⟩
      | some i =>
        match checkAtlasInfo i (uniqueLabels atlas cs) with
        | .error e => .error e
        | .ok i2 => .ok ⟨kept.map Prod.fst, kept.map Prod.snd, some i2⟩

/-- Evaluation of `get_centroids` at one label: the mean coordinate of the points carrying
that label (the value stored in `self._centroids[lab]` for every label present
in the atlas). -/
def centroid (t : AtlasTree) (lab : ℕ) : Point :=
  let pts := ((t.atlas.zip t.coords).filter (fun lc => lc.1 = lab)).map Prod.snd
  let n : ℚ := pts.length
  ((pts.map (fun p => p.1)).sum / n,
   (pts.map (fun p => p.2.1)).sum / n,
   (pts.map (fun p => p.2.2)).sum / n)

/-- Embedding of `closest_centroid` for a single sample: the index of the centroid nearest
to `c` in Euclidean distance; `np.argmin` returns the first index attaining
the minimum.  Comparing squared distances selects the same index. -/
def closestCentroid (c : Point) (centroids : List Point) : ℕ :=
  match (centroids.map (sqdist c)).enum with
  | [] => 0
  | d :: ds =>
    (ds.foldl (fun best cur => if cur.2 < best.2 then cur else best) d).1

/-- Query `self.tree.query(x, k=1)` for one sample: index of, and squared distance
to, the nearest indexed point (first index on exact ties). -/
def nearest (t : AtlasTree) (s : Sample) : ℕ × ℚ :=
  match (t.coords.map (sqdist s.coord)).enum with
  | [] => (0, 0)
  | d :: ds => ds.foldl (fun best cur => if cur.2 < best.2 then cur else best) d

/-- Radius query `self.atlas[self.tree.query_ball_point(sample, r)]`: the labels of all
indexed points within (Euclidean) distance `r` of the sample, inclusive, in
index order.  `dist ≤ r ↔ dist² ≤ r²` for the nonnegative radius. -/
def ballLabels (t : AtlasTree) (s : Sample) (r : ℕ) : List ℕ :=
  ((t.atlas.zip t.coords).filter
    (fun lc => sqdist s.coord lc.2 ≤ ((r : ℚ)) ^ 2)).map Prod.fst

/-! Embedding of `correct.remove_distance`.  The correlation matrix
(`np.corrcoef` of the expression table) and the inter-centroid Euclidean
distance matrix (`scipy.spatial.distance.cdist`) are taken as inputs: both
are produced by library calls on data extracted by `abagen.utils` helpers
that sit outside the embedded core, and the distance entries are irrational
in general; no claim settled here depends on their numeric values.  Matrices
are index functions `ℕ → ℕ → ℚ` together with an explicit size `n`. -/

/-- Mean `np.mean` of a rational vector (0 on the empty vector; the empty case is
never used by a claim). -/
def meanQ (l : List ℚ) : ℚ := l.sum / l.length

/-- Embedding of `correct._resid_dist`: residuals of `dv` after an ordinary
least-squares fit `dv ≈ β0 + β1·iv`.  `np.linalg.lstsq` returns a least
squares solution; the fitted vector `X @ betas` is the orthogonal projection
of `dv` onto `span{iv, 1}`, which these closed-form coefficients compute,
including the degenerate case of constant `iv` (projection onto the constant
vector, i.e. the mean); the residuals `dv - X @ betas` are therefore exactly
these. -/
def residDist (dv iv : List ℚ) : List ℚ :=
  let mx := meanQ iv
  let my := meanQ dv
  let varx := (iv.map (fun x => (x - mx) ^ 2)).sum
  let covxy := (List.zipWith (fun x y => (x - mx) * (y - my)) iv dv).sum
  let b1 := if varx = 0 then 0 else covxy / varx
  let b0 := my - b1 * mx
  List.zipWith (fun y x => y - (b0 + b1 * x)) dv iv

/-- Indices `np.triu_indices(n, k=1)` as a list of pairs in row-major order (the
order of the raveled linear indices). -/
def triuPairs (n : ℕ) : List (ℕ × ℕ) :=
  (List.range n).flatMap
    (fun i => ((List.range n).filter (fun j => i < j)).map (fun j => (i, j)))

/-- Value of a matrix at an index pair. -/
def matAt (m : ℕ → ℕ → ℚ) : ℕ × ℕ → ℚ := fun p => m p.1 p.2

/-- Groups `itertools.combinations_with_replacement` of `['cortex',
'subcortex']` taken 2 at a time, in iteration order. -/
def groupTypes : List (String × String) :=
  [("cortex", "cortex"), ("cortex", "subcortex"), ("subcortex", "subcortex")]

/-- The upper-triangle pairs belonging to the `(src, tar)` connection-type
group: both index blocks `sources × targets` and (for cross groups)
`targets × sources` are formed, so membership is symmetric in the two
categories.  The source computes this set as `np.intersect1d` of raveled
linear indices with the raveled upper triangle; `intersect1d` sorts, and
sorted linear indices on the upper triangle are exactly the row-major
(lexicographic) order of `triuPairs`, so a filter in that order is the same
list. -/
def groupPairs (n : ℕ) (st : ℕ → String) (g : String × String) :
    List (ℕ × ℕ) :=
  (triuPairs n).filter
    (fun p => (st p.1 = g.1 ∧ st p.2 = g.2) ∨ (st p.1 = g.2 ∧ st p.2 = g.1))

/-- The residual assigned to pair `p` by the residualization of one group:
position of `p` within the group's (row-major) pair list, read off the
residual vector of that group's correlations against its distances. -/
def groupResid (n : ℕ) (corr dist : ℕ → ℕ → ℚ) (st : ℕ → String)
    (g : String × String) : ℕ × ℕ → ℚ := fun p =>
  (residDist ((groupPairs n st g).map (matAt corr))
    ((groupPairs n st g).map (matAt dist))).getD
    ((groupPairs n st g).indexOf p) 0

/-- The stratified upper triangle: the three groups are processed in
`groupTypes` order, each writing its residuals into its pairs (`foldl`
captures the source's sequential in-place assignment; the groups are in fact
pairwise disjoint).  Pairs in no group keep the initial 0. -/
def stratUpper (n : ℕ) (corr dist : ℕ → ℕ → ℚ) (st : ℕ → String) :
    (ℕ × ℕ) → ℚ :=
  groupTypes.foldl
    (fun acc g => fun p =>
      if p ∈ groupPairs n st g then groupResid n corr dist st g p else acc p)
    (fun _ => 0)

/-- The unstratified upper triangle: one residualization over all pairs. -/
def globalResid (n : ℕ) (corr dist : ℕ → ℕ → ℚ) : ℕ × ℕ → ℚ := fun p =>
  (residDist ((triuPairs n).map (matAt corr))
    ((triuPairs n).map (matAt dist))).getD ((triuPairs n).indexOf p) 0

/-- Matrix `corr_resid` just before the final reflection: residuals on the strict
upper triangle (stratified when region categories are supplied), 0
elsewhere. -/
def upperResid (n : ℕ) (corr dist : ℕ → ℕ → ℚ)
    (info : Option (ℕ → String)) : ℕ × ℕ → ℚ := fun p =>
  if p ∈ triuPairs n then
    match info with
    | none => globalResid n corr dist p
    | some st => stratUpper n corr dist st p
  else 0

/-- Embedding of `correct.remove_distance` from the correlation matrix on:
`corr_resid + corr_resid.T + np.eye(len(corr_resid))`. -/
def removeDistance (n : ℕ) (corr dist : ℕ → ℕ → ℚ)
    (info : Option (ℕ → String)) : ℕ → ℕ → ℚ := fun i j =>
  upperResid n corr dist info (i, j) + upperResid n corr dist info (j, i) +
    (if i = j ∧ i < n then 1 else 0)

/-! Embedding of `correct.keep_stable_genes`.  A donor's region × gene
DataFrame is a column count plus rows of `(region id, gene values)`; a value
`none` is a NaN cell. -/

/-- One donor's region × gene expression DataFrame. -/
structure DonorMatrix where
  cols : ℕ
  rows : List (ℕ × List (Option ℚ))
  deriving DecidableEq, Repr, Inhabited

/-- Row filter `df.dropna(axis=0, how='all')`: keep rows with at least one non-NaN
value. -/
def dropNaRows (m : DonorMatrix) : List (ℕ × List (Option ℚ)) :=
  m.rows.filter (fun r => ¬ r.2.all Option.isNone)

/-- Intersection `np.intersect1d` of the two donors' non-fully-missing region indices:
the sorted deduplicated common region ids. -/
def sharedRegions (a b : DonorMatrix) : List ℕ :=
  sortNat ((((dropNaRows a).map Prod.fst).filter
    (fun rid => rid ∈ (dropNaRows b).map Prod.fst)).dedup)

/-- Selection `df.loc[regions]` restricted to gene column `g`: the column's values over
the given region ids, in that order. -/
def colVals (m : DonorMatrix) (regions : List ℕ) (g : ℕ) : List (Option ℚ) :=
  regions.map (fun rid =>
    match m.rows.find? (fun r => r.1 == rid) with
    | some r => r.2.getD g none
    | none => none)

/-- Ranking `df.rank()`: per column, each non-NaN value is replaced by its average
1-based rank among the column's non-NaN values (ties get the mean of their
positional ranks, `(countLT + 1 + countLE) / 2`); NaN stays NaN. -/
def rankMatrix (m : DonorMatrix) : DonorMatrix :=
  { cols := m.cols,
    rows := m.rows.map (fun r =>
      (r.1, (List.range m.cols).map (fun g =>
        match r.2.getD g none with
        | none => none
        | some v =>
          let col := m.rows.filterMap (fun r2 => r2.2.getD g none)
          some (((((col.filter (fun w => w < v)).length : ℚ) + 1 +
            ((col.filter (fun w => w ≤ v)).length : ℚ)) / 2))))) }

/-- Population variance numerator of a rational vector (its vanishing is
what decides correlation degeneracy). -/
def varQ (xs : List ℚ) : ℚ := (xs.map (fun x => (x - meanQ xs) ^ 2)).sum

/-- Covariance numerator of two rational vectors. -/
def covQ (xs ys : List ℚ) : ℚ :=
  (List.zipWith (fun x y => (x - meanQ xs) * (y - meanQ ys)) xs ys).sum

/-- Pearson correlation coefficient of two equal-length vectors. -/
noncomputable def pearson (xs ys : List ℚ) : ℝ :=
  (covQ xs ys : ℝ) / (Real.sqrt (varQ xs : ℝ) * Real.sqrt (varQ ys : ℝ))

/-- Modelled from the spec: `abagen.utils.efficient_corr` is not under
`src/` (only its caller `keep_stable_genes` is).  Per §4.5, it computes, per
feature column, the correlation between the two donors' values over the
shared region set, and an empty overlap is tolerated by producing NaN for
that pair rather than aborting; a degenerate column (fewer than two shared
regions, a NaN entry, or zero variance) likewise yields NaN. -/
noncomputable def efficientCorr (xs ys : List (Option ℚ)) : Option ℝ :=
  if xs.length < 2 ∨ xs.any Option.isNone ∨ ys.any Option.isNone ∨
      varQ xs.reduceOption = 0 ∨ varQ ys.reduceOption = 0 then none
  else some (pearson xs.reduceOption ys.reduceOption)

/-- The correlation entry `gene_corrs[g, k]` for donor pair `p` (pairs run
over `itertools.combinations(range(num_subj), 2)`, i.e. `triuPairs`). -/
noncomputable def pairCorrAt (exprs : List DonorMatrix) (rank : Bool)
    (g : ℕ) (p : ℕ × ℕ) : Option ℝ :=
  let forCorr := if rank then exprs.map rankMatrix else exprs
  let a := forCorr.getD p.1 default
  let b := forCorr.getD p.2 default
  let regions := sharedRegions a b
  efficientCorr (colVals a regions g) (colVals b regions g)

/-- The row `gene_corrs[g, :]`: one correlation per donor pair. -/
noncomputable def pairCorrs (exprs : List DonorMatrix) (rank : Bool)
    (g : ℕ) : List (Option ℝ) :=
  (triuPairs exprs.length).map (pairCorrAt exprs rank g)

/-- Mean `np.mean` along the pair axis: NaN for an empty axis, and NaN as soon as
any entry is NaN (plain mean, not `nanmean`). -/
noncomputable def meanOpt (l : List (Option ℝ)) : Option ℝ :=
  if l.isEmpty ∨ l.any Option.isNone then none
  else some (l.reduceOption.sum / l.length)

/-- Score `gene_corrs.mean(axis=1)` at gene `g`: the differential-stability
score. -/
noncomputable def stabilityScore (exprs : List DonorMatrix) (rank : Bool)
    (g : ℕ) : Option ℝ :=
  meanOpt (pairCorrs exprs rank g)

/-- The stability score as claim C6 states it: the average over donor pairs
with NaN pairs EXCLUDED (NaN only when every pair is NaN). -/
noncomputable def stabilityScoreSpec (exprs : List DonorMatrix) (rank : Bool)
    (g : ℕ) : Option ℝ :=
  let vals := (pairCorrs exprs rank g).reduceOption
  if vals.isEmpty then none else some (vals.sum / vals.length)

open Classical in
/-- Comparison `score > threshold` under NaN poisoning: False whenever either side is
NaN. -/
noncomputable def gtOpt : Option ℝ → Option ℝ → Bool
  | some x, some y => if x > y then true else false
  | _, _ => false

open Classical in
/-- Insert into a sorted real list (ascending). -/
noncomputable def insertSortedR (x : ℝ) : List ℝ → List ℝ
  | [] => [x]
  | y :: ys => if x ≤ y then x :: y :: ys else y :: insertSortedR x ys

/-- Ascending insertion sort on reals. -/
noncomputable def sortR (l : List ℝ) : List ℝ := l.foldr insertSortedR []

/-- Percentile `np.percentile(scores, q)` with linear interpolation: raises on an empty
array (outer `none`), yields NaN when any score is NaN (inner `none`), and
otherwise interpolates the sorted values at fractional index
`q/100 * (n-1)`. -/
noncomputable def percentileExc (scores : List (Option ℝ)) (q : ℚ) :
    Option (Option ℝ) :=
  if scores.isEmpty then none
  else if scores.any Option.isNone then some none
  else
    let vals := sortR scores.reduceOption
    let h : ℚ := q / 100 * ((scores.length : ℚ) - 1)
    let lo := h.floor.toNat
    let vlo := vals.getD lo 0
    some (some (vlo + ((h : ℝ) - (lo : ℝ)) * (vals.getD (lo + 1) vlo - vlo)))

/-- The threshold actually compared against: the raw threshold, or its
percentile conversion when `percentile=True` (`none` = the percentile call
raised). -/
noncomputable def thresholdVal (exprs : List DonorMatrix) (t : ℚ)
    (pct rank : Bool) : Option (Option ℝ) :=
  let numGene := (exprs.getD 0 default).cols
  let scores := (List.range numGene).map (stabilityScore exprs rank)
  if pct then percentileExc scores (t * 100) else some (some (t : ℝ))

/-- Selection `df.iloc[:, keep]`: positional boolean column selection. -/
def selectCols (m : DonorMatrix) (keep : List Bool) : DonorMatrix :=
  { cols := (keep.filter id).length,
    rows := m.rows.map (fun r =>
      (r.1, ((r.2.zip keep).filter (fun vk => vk.2)).map Prod.fst)) }

/-- Embedding of `correct.keep_stable_genes`.  `none` models an uncaught
exception (`expression[0]` on an empty list, or `np.percentile` on an empty
score vector); otherwise every donor keeps exactly the gene columns whose
stability score strictly exceeds the (possibly percentile-converted)
threshold. -/
noncomputable def keepStableGenes (exprs : List DonorMatrix) (t : ℚ)
    (pct rank : Bool) : Option (List DonorMatrix) :=
  match exprs with
  | [] => none
  | e0 :: _ =>
    match thresholdVal exprs t pct rank with
    | none => none
    | some thr =>
      let keep := (List.range e0.cols).map
        (fun g => gtOpt (stabilityScore exprs rank g) thr)
      some (exprs.map (fun e => selectCols e keep))

/-- Embedding of `np.unique(possible, return_counts=True)`: the distinct values of
`possible` in ascending order, each paired with its number of occurrences in
`possible`. -/
def uniqueCounts (possible : List ℕ) : List (ℕ × ℕ) :=
  (sortNat possible.dedup).map (fun x => (x, possible.count x))

/-- The final fallback of `_assign_sample`: among ALL remaining distinct
labels, the one whose parcel centroid is closest to the sample coordinate. -/
def tieBreak (t : AtlasTree) (labels : List ℕ) (c : Point) : ℕ :=
  labels.getD (closestCentroid c (labels.map (centroid t))) 0

/-- Embedding of `AtlasTree._assign_sample`: resolves the multiset `possible`
of labels found near `sample` to one label.

Mirrors the source exactly, including its handling of `atlas_info`: the
structural filter is applied to the DEDUPLICATED label array `labels` (not to
the multiset `possible`), and `labels, counts` are then recomputed with
`np.unique` on the filtered distinct labels — so after filtering every
surviving label has count 1.  The final centroid tie-break scans ALL
remaining labels (`labels`), not only those tied for the maximal count. -/
def assignSample (t : AtlasTree) (possible : List ℕ) (sample : Sample) : ℕ :=
  let lc := uniqueCounts possible
  let lc := match t.info with
    | some info =>
      let possible2 := checkLabel (lc.map Prod.fst) [sample] info
      uniqueCounts (possible2.filter (fun l => l ≠ 0))
    | none => lc
  match lc with
  | [] => 0
  | [l] => l.1
  | _ :: _ :: _ =>
    let counts := lc.map Prod.snd
    let maxc := counts.foldr max 0
    let indmax := lc.filter (fun p => p.2 = maxc)
    if indmax.length = 1 then ((indmax.head?).getD (0, 0)).1
    else tieBreak t (lc.map Prod.fst) sample.coord

/-- The per-sample, per-radius computation of one iteration of the
`_match_volume` loop body: `0` when `query_ball_point` returns nothing,
otherwise the `_assign_sample` decision on the returned labels. -/
def decision (t : AtlasTree) (s : Sample) (r : ℕ) : ℕ :=
  let m := ballLabels t s r
  if m = [] then 0 else assignSample t m s

/-- One pass of the `_match_volume` loop at radius `r`: still-unassigned
samples (`label = 0`) receive their `decision` at this radius; assigned
samples are untouched (`labels[idx] = labs` only writes the `idx` rows). -/
def volumeStep (t : AtlasTree) (samples : List Sample) (labels : List ℕ)
    (r : ℕ) : List ℕ :=
  List.zipWith (fun s l => if l = 0 then decision t s r else l) samples labels

/-- The `while tol <= tolerance and np.sum(idx) > 0` loop of `_match_volume`;
`fuel` counts the radii left to try (`tolerance + 1 - tol`). -/
def volumeLoop (t : AtlasTree) (samples : List Sample) :
    ℕ → List ℕ → ℕ → List ℕ
  | 0, labels, _ => labels
  | fuel + 1, labels, r =>
    if labels.any (fun l => l = 0) then
      volumeLoop t samples fuel (volumeStep t samples labels r) (r + 1)
    else labels

/-- Embedding of `AtlasTree._match_volume`: expanding-radius search from
radius 0 up to and including `tolerance`, starting with every sample
unassigned. -/
def matchVolume (t : AtlasTree) (samples : List Sample) (tolerance : ℕ) :
    List ℕ :=
  volumeLoop t samples (tolerance + 1) (List.replicate samples.length 0) 0

/-- Per-sample characterisation of what the code computes (proved below):
the decision at the least radius `r ≤ tolerance` whose decision is nonzero,
and 0 when every radius up to `tolerance` decides 0. -/
def firstAssign (t : AtlasTree) (s : Sample) (tolerance : ℕ) : ℕ :=
  ((((List.range (tolerance + 1)).map (decision t s)).find?
    (fun l => l ≠ 0)).getD 0)

/-- The volumetric policy as the spec's words state it (claim C1): for each
sample, stop at the FIRST radius whose candidate set is nonempty and return
that radius's tie-break decision, even when the decision is 0; samples with
no candidates within `tolerance` get 0. -/
def matchVolumeSpec (t : AtlasTree) (samples : List Sample) (tolerance : ℕ) :
    List ℕ :=
  samples.map (fun s =>
    match (List.range (tolerance + 1)).find? (fun r => ballLabels t s r ≠ []) with
    | some r => decision t s r
    | none => 0)

/-! Surface matching (`AtlasTree._match_surface`).  The nearest-vertex query
is exact rational arithmetic (argmin of squared distances), but the outlier
cutoff compares actual Euclidean distances against their batch mean plus a
multiple of their sample standard deviation, so that step lives in `ℝ`. -/

/-- Squared nearest-vertex distances for the batch (`dist**2` from
`self.tree.query(..., k=1)`). -/
def surfaceSqdists (t : AtlasTree) (samples : List Sample) : List ℚ :=
  samples.map (fun s => (nearest t s).2)

/-- Labels `self.atlas[idx]`: label of each sample's nearest vertex. -/
def surfaceRawLabels (t : AtlasTree) (samples : List Sample) : List ℕ :=
  samples.map (fun s => t.atlas.getD (nearest t s).1 0)

/-- Nearest-vertex labels after the optional structural validation
(`if self.atlas_info is not None: labels = _check_label(...)`). -/
def surfaceLabels (t : AtlasTree) (samples : List Sample) : List ℕ :=
  match t.info with
  | some info => checkLabel (surfaceRawLabels t samples) samples info
  | none => surfaceRawLabels t samples

/-- The Euclidean nearest-vertex distances (`dist` from the tree query). -/
noncomputable def surfaceDists (t : AtlasTree) (samples : List Sample) :
    List ℝ :=
  (surfaceSqdists t samples).map (fun q : ℚ => Real.sqrt (q : ℝ))

/-- Mean `np.mean` of a distance vector. -/
noncomputable def meanR (l : List ℝ) : ℝ := l.sum / l.length

/-- Deviation `np.std(..., ddof=1)`: sample standard deviation, divisor `n - 1`. -/
noncomputable def sampleStd (l : List ℝ) : ℝ :=
  Real.sqrt (((l.map (fun x => (x - meanR l) ^ 2)).sum) / ((l.length : ℝ) - 1))

open Classical in
/-- The outlier-rejection step of `_match_surface`: when the batch has more
than one sample, any sample whose nearest-vertex distance strictly exceeds
`mean + tolerance * std(ddof=1)` is reset to 0; otherwise the labels pass
through unchanged. -/
noncomputable def surfaceOutlier (labels : List ℕ) (dists : List ℝ)
    (tol : ℚ) : List ℕ :=
  if labels.length > 1 then
    (labels.zip dists).map (fun ld =>
      if ld.2 > meanR dists + sampleStd dists * (tol : ℝ) then 0 else ld.1)
  else labels

/-- Embedding of `AtlasTree._match_surface`. -/
noncomputable def matchSurface (t : AtlasTree) (samples : List Sample)
    (tol : ℚ) : List ℕ :=
  surfaceOutlier (surfaceLabels t samples) (surfaceDists t samples) tol

/-- Scratch atlas for the volumetric-termination scenario: label 1 at the
origin with hemisphere "R", label 2 one unit away with hemisphere "L". -/
def t1 : AtlasTree :=
  ⟨[1, 2], [(0, 0, 0), (1, 0, 0)],
   some [⟨1, "R", "cortex"⟩, ⟨2, "L", "cortex"⟩]⟩

def s1 : Sample := ⟨(0, 0, 0), "L", "cortex"⟩

/-- Scratch atlas for the tie-break scenario without atlas info: labels with
counts 2, 2, 1 within radius; the centroid of the count-1 label 3 coincides
with the sample. -/
def t2 : AtlasTree :=
  ⟨[1, 1, 2, 2, 3],
   [(0, 0, 0), (0, 0, 2), (0, 4, 0), (0, 4, 2), (0, 2, 1)], none⟩

def s2 : Sample := ⟨(0, 2, 1), "L", "cortex"⟩

/-- Scratch atlas for the tie-break scenario with atlas info: label 1 has two
points within radius, label 2 one point, both labels pass the structural
filter, and label 2's centroid is closer to the sample. -/
def t3 : AtlasTree :=
  ⟨[1, 1, 2], [(0, 0, 0), (0, 0, 2), (10, 0, 0)],
   some [⟨1, "L", "cortex"⟩, ⟨2, "L", "cortex"⟩]⟩

def s3 : Sample := ⟨(10, 0, 0), "L", "cortex"⟩

/-- Surface atlas for the outlier-rejection scenario: four vertices of one
parcel; three samples sit exactly on vertices, the fourth is 8 mm away from
its nearest vertex. -/
def t4 : AtlasTree :=
  ⟨[1, 1, 1, 1], [(0, 0, 0), (10, 0, 0), (20, 0, 0), (30, 0, 0)], none⟩

def surfSamples : List Sample :=
  [⟨(0, 0, 0), "L", "cortex"⟩, ⟨(10, 0, 0), "L", "cortex"⟩,
   ⟨(20, 0, 0), "L", "cortex"⟩, ⟨(38, 0, 0), "L", "cortex"⟩]

/-- Returns `true` on a successful construction, `False` on a raised error. -/
def exceptOk {ε α : Type} : Except ε α → Bool
  | .ok _ => true
  | .error _ => false

/-- Region categories with a cerebellar region — legal per the atlas-info
contract, but outside the two types the stratification hardcodes. -/
def stBad : ℕ → String := fun i => if i = 0 then "cortex" else "cerebellum"

/-- Cortex/subcortex categories for the C3 witness. -/
def stGood : ℕ → String := fun i => if i = 0 then "cortex" else "subcortex"

/-- A constant correlation matrix for the C3 scenarios. -/
def cBad : ℕ → ℕ → ℚ := fun _ _ => 5

/-- A constant distance matrix for the C3 scenarios. -/
def dBad : ℕ → ℕ → ℚ := fun _ _ => 1

/-- A sample correlation matrix for the C5 witness. -/
def exCorr : ℕ → ℕ → ℚ := fun i j => if i = j then 1 else 1 / 2

/-- A sample distance matrix for the C5 witness. -/
def exDist : ℕ → ℕ → ℚ := fun i j => if i = j then 0 else 3

/-- A one-gene, two-region donor matrix. -/
def exD : DonorMatrix := ⟨1, [(0, [some 1]), (1, [some 2])]⟩

/-- Donor matrices for the C6 scenario: two identical donors sharing regions
0–2, and a third donor with disjoint regions 7–9. -/
def dA : DonorMatrix := ⟨1, [(0, [some 0]), (1, [some 1]), (2, [some 2])]⟩

def dC : DonorMatrix := ⟨1, [(7, [some 0]), (8, [some 1]), (9, [some 2])]⟩

def ex6 : List DonorMatrix := [dA, dA, dC]

/-! Equivalence of the batched `_match_volume` loop with a per-sample
search.  The loop touches only still-unassigned samples, so it equals,
sample by sample, the iteration that keeps a label once it is nonzero. -/

/-- Per-sample view of the `_match_volume` iteration. -/
def sampleLoop (t : AtlasTree) (s : Sample) : ℕ → ℕ → ℕ → ℕ
  | 0, l, _ => l
  | fuel + 1, l, r =>
    if l = 0 then sampleLoop t s fuel (decision t s r) (r + 1) else l

/-- Iteration of `_match_volume` without the `np.sum(idx) > 0` early exit. -/
def volumeIter (t : AtlasTree) (samples : List Sample) :
    ℕ → List ℕ → ℕ → List ℕ
  | 0, labels, _ => labels
  | fuel + 1, labels, r =>
    volumeIter t samples fuel (volumeStep t samples labels r) (r + 1)

theorem sampleLoop_nonzero (t : AtlasTree) (s : Sample) (fuel l r : ℕ)
    (h : l ≠ 0) : sampleLoop t s fuel l r = l := by
  cases fuel with
  | zero => rfl
  | succ fuel => simp [sampleLoop, h]

theorem volumeStep_id (t : AtlasTree) (samples : List Sample)
    (labels : List ℕ) (r : ℕ) (hlen : labels.length = samples.length)
    (h : ∀ l ∈ labels, l ≠ 0) :
    volumeStep t samples labels r = labels := by
  induction samples generalizing labels with
  | nil =>
    cases labels with
    | nil => rfl
    | cons l ls => simp at hlen
  | cons s ss ih =>
    cases labels with
    | nil => simp at hlen
    | cons l ls =>
      have hl : l ≠ 0 := h l (by simp)
      have hls : ∀ x ∈ ls, x ≠ 0 := fun x hx => h x (by simp [hx])
      simp only [List.length_cons, Nat.succ_inj] at hlen
      simpa [volumeStep, hl] using ih ls hlen hls

theorem volumeStep_length (t : AtlasTree) (samples : List Sample)
    (labels : List ℕ) (r : ℕ) (hlen : labels.length = samples.length) :
    (volumeStep t samples labels r).length = samples.length := by
  rw [volumeStep, List.length_zipWith, hlen, Nat.min_self]

theorem volumeIter_id (t : AtlasTree) (samples : List Sample)
    (fuel : ℕ) (labels : List ℕ) (r : ℕ)
    (hlen : labels.length = samples.length) (h : ∀ l ∈ labels, l ≠ 0) :
    volumeIter t samples fuel labels r = labels := by
  induction fuel generalizing labels r with
  | zero => rfl
  | succ fuel ih =>
    rw [volumeIter, volumeStep_id t samples labels r hlen h, ih _ _ hlen h]

theorem volumeLoop_eq_iter (t : AtlasTree) (samples : List Sample)
    (fuel : ℕ) (labels : List ℕ) (r : ℕ)
    (hlen : labels.length = samples.length) :
    volumeLoop t samples fuel labels r = volumeIter t samples fuel labels r := by
  induction fuel generalizing labels r with
  | zero => rfl
  | succ fuel ih =>
    rw [volumeLoop, volumeIter]
    by_cases h : labels.any (fun l => l = 0)
    · rw [if_pos h, ih _ _ (volumeStep_length t samples labels r hlen)]
    · rw [if_neg h]
      have hall : ∀ l ∈ labels, l ≠ 0 := by
        intro l hl
        by_contra hz
        exact h (List.any_eq_true.mpr ⟨l, hl, by simp [hz]⟩)
      rw [volumeStep_id t samples labels r hlen hall,
        volumeIter_id t samples fuel labels (r + 1) hlen hall]

theorem zipWith_congr_fun {α β γ : Type} (f g : α → β → γ)
    (as : List α) (bs : List β) (h : ∀ a b, f a b = g a b) :
    List.zipWith f as bs = List.zipWith g as bs := by
  induction as generalizing bs with
  | nil => rfl
  | cons a as ih =>
    cases bs with
    | nil => rfl
    | cons b bs => simp [h, ih]

theorem zipWith_zipWith_same {α β γ δ : Type} (f : α → γ → δ) (g : α → β → γ)
    (as : List α) (bs : List β) :
    List.zipWith f as (List.zipWith g as bs) =
      List.zipWith (fun a b => f a (g a b)) as bs := by
  induction as generalizing bs with
  | nil => simp
  | cons a as ih =>
    cases bs with
    | nil => simp
    | cons b bs => simp [ih]

theorem zipWith_self_right {α β : Type} (as : List α) (bs : List β)
    (h : bs.length = as.length) :
    List.zipWith (fun _ b => b) as bs = bs := by
  induction as generalizing bs with
  | nil => cases bs with
    | nil => rfl
    | cons b bs => simp at h
  | cons a as ih =>
    cases bs with
    | nil => simp at h
    | cons b bs =>
      simp only [List.length_cons, Nat.succ_inj] at h
      simp [ih bs h]

theorem volumeIter_pointwise (t : AtlasTree) (samples : List Sample)
    (fuel : ℕ) (labels : List ℕ) (r : ℕ)
    (h : labels.length = samples.length) :
    volumeIter t samples fuel labels r =
      List.zipWith (fun s l => sampleLoop t s fuel l r) samples labels := by
  induction fuel generalizing labels r with
  | zero => exact (zipWith_self_right samples labels h).symm
  | succ fuel ih =>
    rw [volumeIter, volumeStep,
      ih (List.zipWith (fun s l => if l = 0 then decision t s r else l)
        samples labels) (r + 1)
        (by rw [List.length_zipWith, h, Nat.min_self]),
      zipWith_zipWith_same]
    apply zipWith_congr_fun
    intro s l
    by_cases hl : l = 0
    · simp [sampleLoop, hl]
    · simp [sampleLoop, hl, sampleLoop_nonzero t s fuel l (r + 1) hl]

theorem zipWith_replicate_zero {β : Type} (F : Sample → ℕ → β)
    (samples : List Sample) :
    List.zipWith F samples (List.replicate samples.length 0) =
      samples.map (fun s => F s 0) := by
  induction samples with
  | nil => rfl
  | cons s ss ih => simp [List.replicate_succ, ih]

theorem sampleLoop_eq_find (t : AtlasTree) (s : Sample) (fuel r : ℕ) :
    sampleLoop t s fuel 0 r =
      (((List.range' r fuel).map (decision t s)).find?
        (fun l => l ≠ 0)).getD 0 := by
  induction fuel generalizing r with
  | zero => rfl
  | succ fuel ih =>
    rw [List.range'_succ]
    by_cases hd : decision t s r = 0
    · simp only [sampleLoop, if_pos rfl, List.map_cons, List.find?]
      rw [hd]
      simpa using ih (r + 1)
    · simp only [sampleLoop, if_pos rfl, List.map_cons, List.find?]
      rw [sampleLoop_nonzero t s fuel _ (r + 1) hd]
      simp [hd]

theorem getD_eq_get {α : Type} (l : List α) (d : α) (i : ℕ)
    (h : i < l.length) : l.getD i d = l.get ⟨i, h⟩ := by
  rw [List.getD_eq_getElem l d h, List.get_eq_getElem]

theorem getD_map_zip {α β γ : Type} (f : α × β → γ) (xs : List α)
    (ys : List β) (i : ℕ) (d : γ) (hx : i < xs.length) (hy : i < ys.length) :
    ((xs.zip ys).map f).getD i d = f (xs.get ⟨i, hx⟩, ys.get ⟨i, hy⟩) := by
  induction xs generalizing ys i with
  | nil => simp at hx
  | cons x xs ih =>
    cases ys with
    | nil => simp at hy
    | cons y ys =>
      cases i with
      | zero => rfl
      | succ i =>
        simp only [List.zip_cons_cons, List.map_cons, List.getD_cons_succ]
        exact ih ys i (by simpa using hx) (by simpa using hy)

theorem checkLabel_length (label : List ℕ) (sampleInfo : List Sample)
    (info : AtlasInfo) (h : sampleInfo.length = label.length) :
    (checkLabel label sampleInfo info).length = label.length := by
  rw [checkLabel]
  simp only [h, if_pos rfl]
  by_cases hall : label.all (fun l => (lookupRow info l).isSome)
  · rw [if_pos hall]
    simp [List.length_zip, h]
  · rw [if_neg hall]

theorem surfaceLabels_length (t : AtlasTree) (samples : List Sample) :
    (surfaceLabels t samples).length = samples.length := by
  rw [surfaceLabels]
  cases t.info with
  | none => simp [surfaceRawLabels]
  | some info =>
    simp only
    rw [checkLabel_length _ _ _ (by simp [surfaceRawLabels])]
    simp [surfaceRawLabels]

theorem surfaceDists_length (t : AtlasTree) (samples : List Sample) :
    (surfaceDists t samples).length = samples.length := by
  rw [surfaceDists, List.length_map, surfaceSqdists, List.length_map]

/-- C1 (amended): `_match_volume` assigns each sample the tie-break decision
of the LEAST radius `r ≤ tolerance` whose decision is nonzero (0 when there
is none); a sample whose first nonempty candidate set resolves to 0 is NOT
removed from consideration — larger radii are still queried for it. -/
theorem claimC1_amended (t : AtlasTree) (samples : List Sample)
    (tolerance : ℕ) :
    matchVolume t samples tolerance =
      samples.map (fun s => firstAssign t s tolerance) := by
  rw [matchVolume,
    volumeLoop_eq_iter t samples (tolerance + 1)
      (List.replicate samples.length 0) 0 (by simp),
    volumeIter_pointwise t samples (tolerance + 1)
      (List.replicate samples.length 0) 0 (by simp),
    zipWith_replicate_zero]
  apply List.map_congr_left
  intro s _hs
  rw [sampleLoop_eq_find, firstAssign, ← List.range_eq_range']


theorem t1_ball0 : ballLabels t1 s1 0 = [1] := by
  norm_num [ballLabels, t1, s1, sqdist, List.filter]

theorem t1_ball1 : ballLabels t1 s1 1 = [1, 2] := by
  norm_num [ballLabels, t1, s1, sqdist, List.filter]

theorem t1_assign1 : assignSample t1 [1] s1 = 0 := by decide

theorem t1_assign12 : assignSample t1 [1, 2] s1 = 2 := by decide

theorem t1_dec0 : decision t1 s1 0 = 0 := by
  simp only [decision, t1_ball0]
  norm_num [t1_assign1]

theorem t1_dec1 : decision t1 s1 1 = 2 := by
  simp only [decision, t1_ball1]
  simp [t1_assign12]

/-- C1 counterexample: at radius 0 the query around `s1` already returns the
nonempty candidate set `[1]`, whose tie-break decision resolves to 0 (label 1
is rejected for its hemisphere), yet the code queries radius 1 as well and
assigns label 2 — while the claim's immediate-termination policy would
return 0. -/
theorem claimC1_counterexample :
    ballLabels t1 s1 0 = [1] ∧ decision t1 s1 0 = 0 ∧
    matchVolume t1 [s1] 2 = [2] ∧ matchVolumeSpec t1 [s1] 2 = [0] := by
  refine ⟨t1_ball0, t1_dec0, ?_, ?_⟩
  · simp [matchVolume, volumeLoop, volumeStep, t1_dec0, t1_dec1]
  · have hr : List.range 3 = [0, 1, 2] := rfl
    simp [matchVolumeSpec, hr, List.find?, t1_ball0, t1_dec0]

theorem t2_tie : assignSample t2 [1, 1, 2, 2, 3] s2 = tieBreak t2 [1, 2, 3] s2.coord :=
  rfl

theorem t3_tie : assignSample t3 [1, 1, 2] s3 = tieBreak t3 [1, 2] s3.coord :=
  rfl

/-- C2: evaluation of the tie-break at two failing inputs.  (a) With
`atlas_info` attached and the multiset `[1, 1, 2]` of in-radius labels — both
labels passing the structural filter — label 1 is the most frequent (count 2
versus 1), yet the code returns 2, because `_assign_sample` recomputes the
counts on the DEDUPLICATED filtered labels, so every candidate ends up with
count 1 and the centroid decides.  (b) Without `atlas_info`, on the multiset
`[1, 1, 2, 2, 3]` labels 1 and 2 tie for most frequent, but the centroid
tie-break scans ALL remaining labels and returns the count-1 label 3. -/
theorem claimC2_code_eval :
    (assignSample t3 [1, 1, 2] s3 = 2 ∧
      checkLabel [1, 2] [s3] [⟨1, "L", "cortex"⟩, ⟨2, "L", "cortex"⟩] = [1, 2] ∧
      List.count 1 [1, 1, 2] = 2 ∧ List.count 2 [1, 1, 2] = 1) ∧
    (assignSample t2 [1, 1, 2, 2, 3] s2 = 3 ∧
      List.count 3 [1, 1, 2, 2, 3] = 1 ∧ List.count 1 [1, 1, 2, 2, 3] = 2) := by
  refine ⟨⟨?_, by decide, by decide, by decide⟩, ⟨?_, by decide, by decide⟩⟩
  · rw [t3_tie]
    norm_num [tieBreak, centroid, closestCentroid, sqdist, t3, s3, List.filter,
      List.enum, List.enumFrom]
  · rw [t2_tie]
    norm_num [tieBreak, centroid, closestCentroid, sqdist, t2, s2, List.filter,
      List.enum, List.enumFrom]

theorem t4_sqdists : surfaceSqdists t4 surfSamples = [0, 0, 0, 64] := by
  norm_num [surfaceSqdists, nearest, sqdist, t4, surfSamples, List.enum,
    List.enumFrom]

theorem sqrt_sixtyfour : Real.sqrt 64 = 8 := by
  rw [show (64 : ℝ) = 8 ^ 2 by norm_num]
  exact Real.sqrt_sq (by norm_num)

theorem t4_dists : surfaceDists t4 surfSamples = [0, 0, 0, 8] := by
  rw [surfaceDists, t4_sqdists]
  simp only [List.map_cons, List.map_nil]
  norm_num [Real.sqrt_zero, sqrt_sixtyfour]

theorem t4_mean : meanR (surfaceDists t4 surfSamples) = 2 := by
  rw [t4_dists, meanR]
  norm_num

theorem t4_std : sampleStd (surfaceDists t4 surfSamples) = 4 := by
  have hm : meanR [(0 : ℝ), 0, 0, 8] = 2 := by rw [meanR]; norm_num
  rw [t4_dists, sampleStd, hm]
  norm_num
  rw [show (16 : ℝ) = 4 ^ 2 by norm_num]
  exact Real.sqrt_sq (by norm_num)

/-- C8: in the surface matching policy, for every batch of two or more
samples, any sample whose nearest-vertex distance strictly exceeds
`mean(distances) + tolerance * sample standard deviation (ddof = 1)` computed
over the whole batch is assigned label 0 regardless of the structural
validation outcome; with at most one sample this rejection step is skipped
(the validated labels pass through unchanged). -/
theorem claimC8_surface_outlier_cutoff (t : AtlasTree) (samples : List Sample)
    (tol : ℚ) :
    (2 ≤ samples.length →
      ∀ i, i < samples.length →
        (surfaceDists t samples).getD i 0 >
          meanR (surfaceDists t samples) +
            sampleStd (surfaceDists t samples) * (tol : ℝ) →
        (matchSurface t samples tol).getD i 0 = 0) ∧
    (samples.length ≤ 1 →
      matchSurface t samples tol = surfaceLabels t samples) := by
  constructor
  · intro h2 i hi hgt
    have hlen : (surfaceLabels t samples).length = samples.length :=
      surfaceLabels_length t samples
    have hdl : (surfaceDists t samples).length = samples.length :=
      surfaceDists_length t samples
    have hd : i < (surfaceDists t samples).length := by omega
    rw [matchSurface, surfaceOutlier, if_pos (by omega)]
    rw [getD_map_zip _ _ _ i 0 (by omega) hd]
    rw [getD_eq_get _ 0 i hd] at hgt
    simp only [if_pos hgt]
  · intro h1
    rw [matchSurface, surfaceOutlier,
      if_neg (by rw [surfaceLabels_length]; omega)]

/-- Witness for C8 at a concrete batch: the fourth sample's distance 8
exceeds `2 + 4·1`, so it is rejected. -/
theorem claimC8_witness : (matchSurface t4 surfSamples 1).getD 3 0 = 0 := by
  apply (claimC8_surface_outlier_cutoff t4 surfSamples 1).1
  · show 2 ≤ 4
    decide
  · show 3 < 4
    decide
  · rw [t4_mean, t4_std, t4_dists]
    norm_num

/-- C7 (amended): when every candidate label has a metadata row, the
Structural Validator keeps a bilateral ("B") candidate iff the structures
match, keeps any other candidate iff hemisphere AND structure both match,
replaces all other candidates by 0 in place (output length = input length),
and is skipped entirely by the surface matcher when `atlas_info` is absent. -/
theorem claimC7_amended (label : List ℕ) (sampleInfo : List Sample)
    (info : AtlasInfo) (h_len : sampleInfo.length = label.length)
    (h_all : ∀ l ∈ label, (lookupRow info l).isSome) :
    (checkLabel label sampleInfo info).length = label.length ∧
    (∀ i, i < label.length → ∃ row,
      lookupRow info (label.getD i 0) = some row ∧
      (checkLabel label sampleInfo info).getD i 0 =
        if (if row.hemisphere = "B"
            then row.structure_ = (sampleInfo.getD i default).structure_
            else row.hemisphere = (sampleInfo.getD i default).hemisphere ∧
                 row.structure_ = (sampleInfo.getD i default).structure_)
        then label.getD i 0 else 0) ∧
    (∀ (t : AtlasTree) (samples : List Sample), t.info = none →
      surfaceLabels t samples = surfaceRawLabels t samples) := by
  refine ⟨checkLabel_length label sampleInfo info h_len, ?_, ?_⟩
  · intro i hi
    have hsi : i < sampleInfo.length := by omega
    obtain ⟨row, hrow⟩ :
        ∃ row, lookupRow info (label.get ⟨i, hi⟩) = some row :=
      Option.isSome_iff_exists.mp
        (h_all (label.get ⟨i, hi⟩) (label.get_mem i hi))
    have hgl : label.getD i 0 = label.get ⟨i, hi⟩ := getD_eq_get label 0 i hi
    have hgs : sampleInfo.getD i default = sampleInfo.get ⟨i, hsi⟩ :=
      getD_eq_get sampleInfo default i hsi
    refine ⟨row, by rw [hgl]; exact hrow, ?_⟩
    have hguard : label.all (fun l => (lookupRow info l).isSome) = true :=
      List.all_eq_true.mpr (fun l hl => h_all l hl)
    have hck : checkLabel label sampleInfo info =
        (label.zip sampleInfo).map (fun ls =>
          match lookupRow info ls.1 with
          | none => ls.1
          | some row =>
            if row.hemisphere = "B" then
              if row.structure_ ≠ ls.2.structure_ then 0 else ls.1
            else
              if row.hemisphere ≠ ls.2.hemisphere ∨
                  row.structure_ ≠ ls.2.structure_
              then 0 else ls.1) := by
      simp only [checkLabel, h_len, if_pos rfl, hguard, if_pos rfl,
        eq_self_iff_true, if_true]
    rw [hgl, hgs, hck, getD_map_zip _ _ _ i 0 hi hsi]
    set sp := sampleInfo.get ⟨i, hsi⟩ with hsp
    set lb := label.get ⟨i, hi⟩ with hlb
    simp only [hrow]
    by_cases hB : row.hemisphere = "B"
    · by_cases hs : row.structure_ = sp.structure_ <;> simp [hB, hs]
    · by_cases hh : row.hemisphere = sp.hemisphere <;>
        by_cases hs : row.structure_ = sp.structure_ <;> simp [hB, hh, hs]
  · intro t samples h
    rw [surfaceLabels, h]

/-- C7 counterexample: label 5 has no metadata row, so the `KeyError` branch
skips validation for the whole batch and the sample declaring hemisphere "L"
keeps label 7 although label 7's metadata records hemisphere "R". -/
theorem claimC7_counterexample :
    checkLabel [5, 7]
      [⟨(0, 0, 0), "L", "cortex"⟩, ⟨(0, 0, 0), "L", "cortex"⟩]
      [⟨7, "R", "cortex"⟩] = [5, 7] ∧
    lookupRow [⟨7, "R", "cortex"⟩] 7 = some ⟨7, "R", "cortex"⟩ ∧
    lookupRow [⟨7, "R", "cortex"⟩] 5 = none := by
  refine ⟨by decide, by decide, by decide⟩

/-- Witness for C7 at a concrete batch in which every label has a row:
label 1 is bilateral with matching structure (kept), label 2 records
hemisphere "R" against the sample's "L" (dropped). -/
theorem claimC7_witness :
    (checkLabel [1, 2]
      [⟨(0, 0, 0), "L", "cortex"⟩, ⟨(0, 0, 0), "L", "cortex"⟩]
      [⟨1, "B", "cortex"⟩, ⟨2, "R", "cortex"⟩]).length = 2 ∧
    (checkLabel [1, 2]
      [⟨(0, 0, 0), "L", "cortex"⟩, ⟨(0, 0, 0), "L", "cortex"⟩]
      [⟨1, "B", "cortex"⟩, ⟨2, "R", "cortex"⟩]).getD 1 0 = 0 := by
  have h := claimC7_amended [1, 2]
    [⟨(0, 0, 0), "L", "cortex"⟩, ⟨(0, 0, 0), "L", "cortex"⟩]
    [⟨1, "B", "cortex"⟩, ⟨2, "R", "cortex"⟩] rfl (by decide)
  refine ⟨h.1, ?_⟩
  obtain ⟨row, hrow, hval⟩ := h.2.1 1 (by decide)
  have hr : row = ⟨2, "R", "cortex"⟩ := by
    have hl : lookupRow [⟨1, "B", "cortex"⟩, ⟨2, "R", "cortex"⟩]
        (List.getD [1, 2] 1 0) = some ⟨2, "R", "cortex"⟩ := by decide
    rw [hl] at hrow
    exact (Option.some_inj.mp hrow).symm
  rw [hval, hr]
  decide

/-- C10: if any candidate label has no row in the atlas-info table, the
`KeyError` branch of `_check_label` silently skips structural validation for
the WHOLE batch: every candidate — including those that a successful lookup
would have rejected — passes through unchanged. -/
theorem claimC10_keyerror_skips_batch (label : List ℕ)
    (sampleInfo : List Sample) (info : AtlasInfo)
    (h : ∃ l ∈ label, lookupRow info l = none) :
    checkLabel label sampleInfo info = label := by
  obtain ⟨l, hl, hnone⟩ := h
  have hfalse : label.all (fun x => (lookupRow info x).isSome) = false :=
    List.all_eq_false.mpr ⟨l, hl, by simp [hnone]⟩
  simp [checkLabel, hfalse]

/-- Witness for C10: label 5 has no row, so label 9 — whose recorded
hemisphere "L" contradicts the sample's "R" and would otherwise be
rejected — survives untouched. -/
theorem claimC10_witness :
    checkLabel [5, 9]
      [⟨(0, 0, 0), "R", "cerebellum"⟩, ⟨(0, 0, 0), "R", "cerebellum"⟩]
      [⟨9, "L", "cortex"⟩] = [5, 9] ∧
    lookupRow [⟨9, "L", "cortex"⟩] 9 = some ⟨9, "L", "cortex"⟩ := by
  refine ⟨claimC10_keyerror_skips_batch _ _ _ ⟨5, by decide, by decide⟩, by decide⟩

/-- C9 (amended): surface-mode `AtlasTree` construction fails when no
coordinates are supplied and when labels and coordinates differ in length;
with equal lengths it succeeds when no `atlas_info` is supplied, or when the
supplied `atlas_info` describes only labels present in the nonzero atlas,
and fails (`OrphanLabel`, via the `atlas_info` setter's validation) when the
supplied `atlas_info` describes an absent label.  In every failure case the
`Except` carries no partial index. -/
theorem claimC9_construction (atlas : List ℕ) (cs : List Point)
    (info : Option AtlasInfo) :
    exceptOk (mkAtlasTree atlas none info) = false ∧
    (atlas.length ≠ cs.length →
      exceptOk (mkAtlasTree atlas (some cs) info) = false) ∧
    (atlas.length = cs.length →
      (∀ i, info = some i → ∀ r ∈ i, r.id ∈ uniqueLabels atlas cs) →
      exceptOk (mkAtlasTree atlas (some cs) info) = true) ∧
    (atlas.length = cs.length → ∀ i, info = some i →
      (∃ r ∈ i, r.id ∉ uniqueLabels atlas cs) →
      exceptOk (mkAtlasTree atlas (some cs) info) = false) := by
  refine ⟨rfl, ?_, ?_, ?_⟩
  · intro h
    rw [mkAtlasTree]
    simp only [if_pos h]
    rfl
  · intro h hvalid
    rw [mkAtlasTree]
    simp only [h, ne_eq, not_true_eq_false, if_false]
    cases info with
    | none => rfl
    | some i =>
      have hall : i.all (fun r => decide (r.id ∈ uniqueLabels atlas cs)) =
          true :=
        List.all_eq_true.mpr
          (fun r hr => decide_eq_true (hvalid i rfl r hr))
      simp only [checkAtlasInfo, if_pos hall]
      rfl
  · intro h i hinfo hbad
    obtain ⟨r, hr, hnot⟩ := hbad
    subst hinfo
    rw [mkAtlasTree]
    simp only [h, ne_eq, not_true_eq_false, if_false]
    have hall : i.all (fun r => decide (r.id ∈ uniqueLabels atlas cs)) =
        false :=
      List.all_eq_false.mpr ⟨r, hr, by simp [hnot]⟩
    simp only [checkAtlasInfo, hall, Bool.false_eq_true, if_false]
    rfl

theorem mem_triuPairs {n : ℕ} {p : ℕ × ℕ} :
    p ∈ triuPairs n ↔ p.1 < p.2 ∧ p.2 < n := by
  cases p with
  | mk i j =>
    simp only [triuPairs, List.mem_flatMap, List.mem_map, List.mem_filter,
      List.mem_range, decide_eq_true_eq]
    constructor
    · rintro ⟨a, _ha, b, ⟨hb, hab⟩, hp⟩
      cases hp
      exact ⟨hab, hb⟩
    · rintro ⟨hij, hj⟩
      exact ⟨i, by omega, j, ⟨hj, hij⟩, rfl⟩

/-- Unfolding of `stratUpper` over the three groups: later groups overwrite
earlier ones, pairs in no group give 0. -/
theorem stratUpper_eq (n : ℕ) (corr dist : ℕ → ℕ → ℚ) (st : ℕ → String)
    (p : ℕ × ℕ) :
    stratUpper n corr dist st p =
      if p ∈ groupPairs n st ("subcortex", "subcortex") then
        groupResid n corr dist st ("subcortex", "subcortex") p
      else if p ∈ groupPairs n st ("cortex", "subcortex") then
        groupResid n corr dist st ("cortex", "subcortex") p
      else if p ∈ groupPairs n st ("cortex", "cortex") then
        groupResid n corr dist st ("cortex", "cortex") p
      else 0 := rfl

/-- C5: the matrix returned by the Distance Corrector is the strict-upper
residual matrix plus its transpose plus the identity: it is symmetric, every
diagonal entry (within the matrix) equals 1, and every strict-upper entry is
exactly the upper-triangle residual. -/
theorem claimC5_reflection (n : ℕ) (corr dist : ℕ → ℕ → ℚ)
    (info : Option (ℕ → String)) :
    (∀ i j, removeDistance n corr dist info i j =
      removeDistance n corr dist info j i) ∧
    (∀ i, i < n → removeDistance n corr dist info i i = 1) ∧
    (∀ i j, i < j → j < n →
      removeDistance n corr dist info i j =
        upperResid n corr dist info (i, j)) := by
  refine ⟨?_, ?_, ?_⟩
  · intro i j
    rw [removeDistance, removeDistance]
    by_cases h : i = j
    · subst h; ring
    · rw [if_neg (by tauto), if_neg (by tauto)]; ring
  · intro i hi
    have hmem : (i, i) ∉ triuPairs n := by
      rw [mem_triuPairs]; omega
    rw [removeDistance]
    simp only [upperResid]
    rw [if_neg hmem, if_pos (by simp [hi])]; ring
  · intro i j hij hj
    have hmem : (j, i) ∉ triuPairs n := by
      rw [mem_triuPairs]; omega
    rw [removeDistance]
    simp only [upperResid]
    rw [if_neg hmem, if_neg (show ¬(i = j ∧ i < n) by omega)]
    ring

/-- C3 (amended): when every region's structural category is cortex or
subcortex, every upper-triangle pair lies in exactly one connection-type
group — keyed by the unordered pair of its endpoints' categories — and its
residual entry is computed from that group's correlations and distances
alone.  (Pairs with an endpoint of any other category lie in no group and
keep residual 0: see the counterexample.) -/
theorem claimC3_stratified_partition (n : ℕ) (corr dist : ℕ → ℕ → ℚ)
    (st : ℕ → String)
    (hst : ∀ i, i < n → st i = "cortex" ∨ st i = "subcortex") :
    ∀ p ∈ triuPairs n,
      ∃ g, g ∈ groupTypes ∧ p ∈ groupPairs n st g ∧
        (∀ g2 ∈ groupTypes, p ∈ groupPairs n st g2 → g2 = g) ∧
        upperResid n corr dist (some st) p =
          groupResid n corr dist st g p := by
  intro p hp
  obtain ⟨hij, hjn⟩ := mem_triuPairs.mp hp
  have h1 := hst p.1 (by omega)
  have h2 := hst p.2 hjn
  have hmem_of : ∀ g : String × String,
      ((st p.1 = g.1 ∧ st p.2 = g.2) ∨ (st p.1 = g.2 ∧ st p.2 = g.1)) →
      p ∈ groupPairs n st g := by
    intro g hg
    exact List.mem_filter.mpr ⟨hp, by simp [hg]⟩
  have hnot_of : ∀ g : String × String,
      ¬((st p.1 = g.1 ∧ st p.2 = g.2) ∨ (st p.1 = g.2 ∧ st p.2 = g.1)) →
      p ∉ groupPairs n st g := by
    intro g hg hmem
    exact hg (by simpa using (List.mem_filter.mp hmem).2)
  have hfinish : ∀ g, g ∈ groupTypes → p ∈ groupPairs n st g →
      (p ∉ groupPairs n st ("cortex", "cortex") ∨
        g = ("cortex", "cortex")) →
      (p ∉ groupPairs n st ("cortex", "subcortex") ∨
        g = ("cortex", "subcortex")) →
      (p ∉ groupPairs n st ("subcortex", "subcortex") ∨
        g = ("subcortex", "subcortex")) →
      ∃ g, g ∈ groupTypes ∧ p ∈ groupPairs n st g ∧
        (∀ g2 ∈ groupTypes, p ∈ groupPairs n st g2 → g2 = g) ∧
        upperResid n corr dist (some st) p =
          groupResid n corr dist st g p := by
    intro g hg hmem hcc hcs hss
    refine ⟨g, hg, hmem, ?_, ?_⟩
    · intro g2 hg2 hmem2
      simp only [groupTypes, List.mem_cons, List.not_mem_nil, or_false] at hg2
      rcases hg2 with rfl | rfl | rfl
      · rcases hcc with hno | rfl
        · exact absurd hmem2 hno
        · rfl
      · rcases hcs with hno | rfl
        · exact absurd hmem2 hno
        · rfl
      · rcases hss with hno | rfl
        · exact absurd hmem2 hno
        · rfl
    · simp only [upperResid, if_pos hp]
      rw [stratUpper_eq]
      rcases hss with hno | rfl
      · rw [if_neg hno]
        rcases hcs with hno2 | rfl
        · rw [if_neg hno2]
          rcases hcc with hno3 | rfl
          · simp only [groupTypes, List.mem_cons, List.not_mem_nil,
              or_false] at hg
            rcases hg with rfl | rfl | rfl
            · exact absurd hmem hno3
            · exact absurd hmem hno2
            · exact absurd hmem hno
          · rw [if_pos hmem]
        · rw [if_pos hmem]
      · rw [if_pos hmem]
  rcases h1 with ha | ha <;> rcases h2 with hb | hb
  · exact hfinish ("cortex", "cortex") (by simp [groupTypes])
      (hmem_of _ (by simp [ha, hb]))
      (Or.inr rfl)
      (Or.inl (hnot_of _ (by simp [ha, hb])))
      (Or.inl (hnot_of _ (by simp [ha, hb])))
  · exact hfinish ("cortex", "subcortex") (by simp [groupTypes])
      (hmem_of _ (by simp [ha, hb]))
      (Or.inl (hnot_of _ (by simp [ha, hb])))
      (Or.inr rfl)
      (Or.inl (hnot_of _ (by simp [ha, hb])))
  · exact hfinish ("cortex", "subcortex") (by simp [groupTypes])
      (hmem_of _ (by simp [ha, hb]))
      (Or.inl (hnot_of _ (by simp [ha, hb])))
      (Or.inr rfl)
      (Or.inl (hnot_of _ (by simp [ha, hb])))
  · exact hfinish ("subcortex", "subcortex") (by simp [groupTypes])
      (hmem_of _ (by simp [ha, hb]))
      (Or.inl (hnot_of _ (by simp [ha, hb])))
      (Or.inl (hnot_of _ (by simp [ha, hb])))
      (Or.inr rfl)

/-- C3 counterexample: with categories cortex/cerebellum the upper-triangle
pair (0, 1) belongs to NONE of the three hardcoded connection-type groups —
not to exactly one group as the claim states — and its residual entry is
left at 0 although its correlation is 5: the pair is dropped from the
residualization altogether. -/
theorem claimC3_counterexample :
    (0, 1) ∈ triuPairs 2 ∧
    (0, 1) ∉ groupPairs 2 stBad ("cortex", "cortex") ∧
    (0, 1) ∉ groupPairs 2 stBad ("cortex", "subcortex") ∧
    (0, 1) ∉ groupPairs 2 stBad ("subcortex", "subcortex") ∧
    removeDistance 2 cBad dBad (some stBad) 0 1 = 0 ∧
    cBad 0 1 = 5 := by
  refine ⟨by decide, by decide, by decide, by decide, ?_, by norm_num [cBad]⟩
  have h1 : upperResid 2 cBad dBad (some stBad) (0, 1) = 0 := by
    simp only [upperResid]
    rw [if_pos (by decide), stratUpper_eq,
      if_neg (by decide), if_neg (by decide), if_neg (by decide)]
  have h2 : upperResid 2 cBad dBad (some stBad) (1, 0) = 0 := by
    simp only [upperResid]
    rw [if_neg (by decide)]
  rw [removeDistance, h1, h2]
  norm_num

/-- Witness for C3 at a concrete cortex/subcortex instance: the pair (0, 1)
lies in the cortex–subcortex group and its residual entry comes from that
group's residualization. -/
theorem claimC3_witness :
    (0, 1) ∈ groupPairs 2 stGood ("cortex", "subcortex") ∧
    upperResid 2 cBad dBad (some stGood) (0, 1) =
      groupResid 2 cBad dBad stGood ("cortex", "subcortex") (0, 1) := by
  obtain ⟨g, _hg, _hmem, huniq, hval⟩ :=
    claimC3_stratified_partition 2 cBad dBad stGood
      (by
        intro i hi
        interval_cases i <;> simp [stGood])
      (0, 1) (by decide)
  obtain rfl := huniq ("cortex", "subcortex") (by decide) (by decide)
  exact ⟨by decide, hval⟩

/-- Witness for C5 at a concrete 2×2 instance. -/
theorem claimC5_witness :
    removeDistance 2 exCorr exDist none 0 0 = 1 ∧
    removeDistance 2 exCorr exDist none 1 1 = 1 ∧
    removeDistance 2 exCorr exDist none 1 0 =
      removeDistance 2 exCorr exDist none 0 1 ∧
    removeDistance 2 exCorr exDist none 0 1 =
      upperResid 2 exCorr exDist none (0, 1) :=
  ⟨(claimC5_reflection 2 exCorr exDist none).2.1 0 (by decide),
   (claimC5_reflection 2 exCorr exDist none).2.1 1 (by decide),
   (claimC5_reflection 2 exCorr exDist none).1 1 0,
   (claimC5_reflection 2 exCorr exDist none).2.2 0 1 (by decide) (by decide)⟩

theorem filter_id_map_false {α : Type} (l : List α) :
    (l.map (fun _ => false)).filter id = [] := by
  induction l with
  | nil => rfl
  | cons a l ih => simp [ih]

theorem zip_false_filter {α : Type} (xs : List α) (bs : List Bool)
    (h : ∀ b ∈ bs, b = false) :
    (((xs.zip bs).filter (fun vk => vk.2)).map Prod.fst : List α) = [] := by
  induction xs generalizing bs with
  | nil => simp
  | cons x xs ih =>
    cases bs with
    | nil => simp
    | cons b bs =>
      have hb : b = false := h b (by simp)
      have hbs : ∀ b2 ∈ bs, b2 = false := fun b2 hb2 => h b2 (by simp [hb2])
      subst hb
      simpa using ih bs hbs

theorem stabilityScore_single (e : DonorMatrix) (rank : Bool) (g : ℕ) :
    stabilityScore [e] rank g = none := by
  rw [stabilityScore, pairCorrs, show triuPairs [e].length = [] from rfl,
    List.map_nil, meanOpt]
  simp

/-- C4 (amended): with exactly one donor matrix with at least one gene
column, `keep_stable_genes` does NOT fail: there are no donor pairs, every
gene's stability score is the NaN mean of an empty axis, no score exceeds
any threshold (NaN comparisons are False, and with `percentile=True` the
percentile of all-NaN scores is NaN), and the donor is returned with every
gene column removed. -/
theorem claimC4_amended (e : DonorMatrix) (t : ℚ) (pct rank : Bool)
    (h : 0 < e.cols) :
    keepStableGenes [e] t pct rank =
      some [{ cols := 0, rows := e.rows.map (fun r => (r.1, [])) }] := by
  have hscores : (List.range e.cols).map (stabilityScore [e] rank) =
      (List.range e.cols).map (fun _ => none) :=
    List.map_congr_left (fun g _ => stabilityScore_single e rank g)
  have hthr : ∃ thr, thresholdVal [e] t pct rank = some thr := by
    cases pct with
    | false => exact ⟨some (t : ℝ), rfl⟩
    | true =>
      refine ⟨none, ?_⟩
      show percentileExc ((List.range e.cols).map (stabilityScore [e] rank))
        (t * 100) = some none
      rw [hscores, percentileExc]
      rw [if_neg ?hne, if_pos ?hany]
      case hne =>
        simp only [List.isEmpty_iff, List.map_eq_nil_iff, List.range_eq_nil]
        omega
      case hany =>
        refine List.any_eq_true.mpr ⟨none, ?_, rfl⟩
        exact List.mem_map.mpr ⟨0, List.mem_range.mpr h, rfl⟩
  obtain ⟨thr, hthr⟩ := hthr
  have hkeep : (List.range e.cols).map
      (fun g => gtOpt (stabilityScore [e] rank g) thr) =
      (List.range e.cols).map (fun _ => false) :=
    List.map_congr_left (fun g _ => by
      rw [stabilityScore_single e rank g]
      rfl)
  have hsel : selectCols e ((List.range e.cols).map (fun _ => false)) =
      { cols := 0, rows := e.rows.map (fun r => (r.1, [])) } := by
    rw [selectCols]
    congr 1
    · rw [filter_id_map_false]
      rfl
    · apply List.map_congr_left
      intro r _hr
      exact congrArg (Prod.mk r.1) (zip_false_filter r.2 _ (fun b hb => by
        obtain ⟨x, _, hx⟩ := List.mem_map.mp hb
        exact hx.symm))
  rw [keepStableGenes]
  simp only [hthr, hkeep, List.map_cons, List.map_nil, hsel]

/-- C4 counterexample: called with a single donor matrix — fewer than 2 —
`keep_stable_genes` returns a result instead of failing. -/
theorem claimC4_counterexample :
    (keepStableGenes [exD] (1 / 2) false false).isSome = true := rfl

/-- Witness for C4: the single donor comes back with both regions and zero
gene columns, under the percentile and rank options. -/
theorem claimC4_witness :
    keepStableGenes [exD] (9 / 10) true true =
      some [{ cols := 0, rows := [(0, []), (1, [])] }] := by
  rw [claimC4_amended exD (9 / 10) true true (by decide)]
  rfl

theorem ex6_varQ : varQ [0, 1, 2] = 2 := by
  norm_num [varQ, meanQ]

theorem ex6_corrAB : pairCorrAt ex6 false 0 (0, 1) =
    efficientCorr [some 0, some 1, some 2] [some 0, some 1, some 2] := rfl

theorem ex6_corrAB_val :
    pairCorrAt ex6 false 0 (0, 1) = some (pearson [0, 1, 2] [0, 1, 2]) := by
  rw [ex6_corrAB, efficientCorr,
    if_neg (by
      simp only [not_or]
      refine ⟨by decide, by decide, by decide, ?_, ?_⟩ <;>
        · rw [show List.reduceOption
              [some (0 : ℚ), some 1, some 2] = [0, 1, 2] from rfl, ex6_varQ]
          norm_num)]
  rfl

theorem ex6_corrAC : pairCorrAt ex6 false 0 (0, 2) = none := rfl

theorem ex6_corrBC : pairCorrAt ex6 false 0 (1, 2) = none := rfl

theorem ex6_pairCorrs : pairCorrs ex6 false 0 =
    [pairCorrAt ex6 false 0 (0, 1), pairCorrAt ex6 false 0 (0, 2),
     pairCorrAt ex6 false 0 (1, 2)] := by
  rw [pairCorrs, show triuPairs ex6.length = [(0, 1), (0, 2), (1, 2)] from rfl]
  rfl

/-- C6 counterexample: for gene 0 the three donor-pair correlations are
`[1, NaN, NaN]` (the third donor shares no regions with the others).  The
claim's NaN-excluding average is 1, but the code's score — a plain
`np.mean` — is NaN: NaN pairs are NOT excluded. -/
theorem claimC6_counterexample :
    stabilityScore ex6 false 0 = none ∧
    stabilityScoreSpec ex6 false 0 = some 1 := by
  constructor
  · rw [stabilityScore, ex6_pairCorrs, ex6_corrAB_val, ex6_corrAC, ex6_corrBC,
      meanOpt]
    simp
  · rw [stabilityScoreSpec, ex6_pairCorrs, ex6_corrAB_val, ex6_corrAC,
      ex6_corrBC]
    simp only [List.reduceOption_cons_of_some, List.reduceOption_cons_of_none,
      List.reduceOption_nil, List.isEmpty_cons, List.sum_cons, List.sum_nil,
      List.length_cons, List.length_nil]
    rw [if_neg (by simp)]
    have hp : pearson [0, 1, 2] [0, 1, 2] = 1 := by
      have hcov : covQ [0, 1, 2] [0, 1, 2] = 2 := by
        norm_num [covQ, meanQ]
      rw [pearson, hcov, ex6_varQ,
        Real.mul_self_sqrt (by norm_num : (0 : ℝ) ≤ ((2 : ℚ) : ℝ))]
      norm_num
    rw [hp]
    norm_num

/-- C6 (amended): the stability score is the plain mean over donor pairs, so
any NaN pair makes the gene's score NaN (in particular the all-NaN case of
the claim), and a NaN score never exceeds any threshold — the gene is never
retained. -/
theorem claimC6_amended (exprs : List DonorMatrix) (rank : Bool) (g : ℕ)
    (h : none ∈ pairCorrs exprs rank g) :
    stabilityScore exprs rank g = none ∧
    ∀ thr, gtOpt (stabilityScore exprs rank g) thr = false := by
  have hs : stabilityScore exprs rank g = none := by
    rw [stabilityScore, meanOpt,
      if_pos (Or.inr (List.any_eq_true.mpr ⟨none, h, rfl⟩))]
  refine ⟨hs, fun thr => ?_⟩
  rw [hs]
  rfl

/-- Witness for C6 at the concrete three-donor input: gene 0 has a NaN pair,
its score is NaN, and it is not retained at threshold 1/2. -/
theorem claimC6_witness :
    stabilityScore ex6 false 0 = none ∧
    gtOpt (stabilityScore ex6 false 0) (some ((1 : ℝ) / 2)) = false := by
  have h : none ∈ pairCorrs ex6 false 0 := by
    rw [ex6_pairCorrs, ex6_corrAC]
    simp
  exact ⟨(claimC6_amended ex6 false 0 h).1,
    (claimC6_amended ex6 false 0 h).2 _⟩

/-- C9 counterexample: labels and coordinates of equal length, but the
supplied `atlas_info` describes label 2, which the atlas does not contain —
construction raises `OrphanLabel` instead of succeeding. -/
theorem claimC9_counterexample :
    ([1] : List ℕ).length = [((0 : ℚ), (0 : ℚ), (0 : ℚ))].length ∧
    exceptOk (mkAtlasTree [1] (some [((0 : ℚ), (0 : ℚ), (0 : ℚ))])
      (some [⟨2, "L", "cortex"⟩])) = false :=
  ⟨rfl, by decide⟩

/-- Witness for C9: one-label atlases — no coordinates fail, two coordinates
against one label fail, one coordinate succeeds with no info and with a
valid info, and an info describing absent label 3 fails. -/
theorem claimC9_witness :
    exceptOk (mkAtlasTree [1] none none) = false ∧
    exceptOk (mkAtlasTree [1] (some [(0, 0, 0), (1, 1, 1)]) none) = false ∧
    exceptOk (mkAtlasTree [1] (some [(0, 0, 0)]) none) = true ∧
    exceptOk (mkAtlasTree [1] (some [(0, 0, 0)])
      (some [⟨1, "L", "cortex"⟩])) = true ∧
    exceptOk (mkAtlasTree [1] (some [(0, 0, 0)])
      (some [⟨3, "L", "cortex"⟩])) = false :=
  ⟨(claimC9_construction [1] [] none).1,
   (claimC9_construction [1] [(0, 0, 0), (1, 1, 1)] none).2.1 (by decide),
   (claimC9_construction [1] [(0, 0, 0)] none).2.2.1 rfl
     (fun _i hi => nomatch hi),
   (claimC9_construction [1] [(0, 0, 0)] (some [⟨1, "L", "cortex"⟩])).2.2.1
     rfl (fun i hi => by
       injection hi with hh
       subst hh
       decide),
   (claimC9_construction [1] [(0, 0, 0)] (some [⟨3, "L", "cortex"⟩])).2.2.2
     rfl [⟨3, "L", "cortex"⟩] rfl
     ⟨⟨3, "L", "cortex"⟩, by decide, by decide⟩⟩

end Abagen
